import Mathlib

/-!
# Verification of the Lightdash analytics event dispatcher

Shallow embedding of the server-side analytics wrapper
(`LightdashAnalytics` extending the delivery SDK's `Analytics` class) and
the request execution-context classifier
(`getContextFromHeader` / `getContextFromQueryOrHeader`).

JavaScript property bags are modelled as association lists of
string-keyed `JsVal` values; spread-with-override (`{...o, k: v}`) is
`jsSet`; reading a missing field yields `JsVal.undef`, mirroring the
runtime.  Calls forwarded to the delivery SDK are reified as values
(`OutgoingTrack`, …); `track`/`identify`/`group` return `none` when the
suppression check (`!this.lightdashConfig.rudder.writeKey`) fires and
otherwise `some` outgoing record.  `wrapEvent` is modelled with an
explicit transport behaviour (which SDK call, if any, throws), returning
the ordered trace of its own `this.track` invocations, the SDK-level
calls, the log lines, and the final outcome.
-/

/-- A JavaScript value as it occurs in the event property bags of this
module: strings, booleans, numbers, or `undefined`. -/
inductive JsVal where
  | str (s : String)
  | bool (b : Bool)
  | num (n : Int)
  | undef
  deriving DecidableEq, Repr

/-- JavaScript truthiness for the values modelled by `JsVal`. -/
def JsVal.truthy : JsVal → Bool
  | .str s => !s.isEmpty
  | .bool b => b
  | .num n => n != 0
  | .undef => false

/-- A JavaScript object used as a property bag: an ordered association
list of key/value pairs (keys unique by construction of the operations). -/
abbrev JsObj := List (String × JsVal)

/-- Property read `o.k`: `some v` when the key is present. -/
def jsGet (o : JsObj) (k : String) : Option JsVal :=
  (o.find? (fun p => p.1 == k)).map Prod.snd

/-- Property read `o.k` with JavaScript semantics: a missing key reads as
`undefined`. -/
def jsGetD (o : JsObj) (k : String) : JsVal :=
  (jsGet o k).getD JsVal.undef

/-- Whether the key `k` is an own property of the object (`k in o`). -/
def hasKey (o : JsObj) (k : String) : Bool :=
  o.any (fun p => p.1 == k)

/-- Spread-with-override `{...o, k: v}`: replaces the binding of `k` in
place when present, otherwise appends it. -/
def jsSet (o : JsObj) (k : String) (v : JsVal) : JsObj :=
  if o.any (fun p => p.1 == k) then
    o.map (fun p => if p.1 == k then (k, v) else p)
  else
    o ++ [(k, v)]

/-- Object merge `{...a, ...b}`: each binding of `b` overrides `a` in turn. -/
def jsMerge (a b : JsObj) : JsObj :=
  b.foldl (fun acc kv => jsSet acc kv.1 kv.2) a

/-- JavaScript truthiness of a `string | undefined` configuration value
(`undefined` and the empty string are falsy). -/
def truthyStr : Option String → Bool
  | none => false
  | some s => !s.isEmpty

/-- Deployment mode (`LightdashMode` from the configuration). -/
inductive LightdashMode where
  | defaultMode
  | demo
  | pr
  | cloudBeta
  | dev
  deriving DecidableEq, Repr

/-- The `rudder` section of the configuration: delivery write key and data
plane URL, each possibly unset. -/
structure RudderConfig where
  writeKey : Option String
  dataPlaneUrl : Option String
  deriving DecidableEq, Repr

/-- The slice of `LightdashConfig` read by the analytics wrapper. -/
structure LightdashConfig where
  rudder : RudderConfig
  mode : LightdashMode
  siteUrl : String
  deriving DecidableEq, Repr

/-- The process-wide `app` context record built once in the
`LightdashAnalytics` constructor and attached to every outgoing call. -/
structure AppContext where
  appNamespace : String
  name : String
  version : String
  mode : LightdashMode
  siteUrl : Option String
  installId : String
  installType : String
  deriving DecidableEq, Repr

/-- The constructor's computation of `this.lightdashContext.app`:
`name` is the literal `'lightdash_server'`, `siteUrl` is only kept in
cloud-beta mode, and the install id/type fall back (on an unset or empty
environment variable) to a random identifier resp. `'unknown'`. -/
def mkLightdashContext (cfg : LightdashConfig) (version : String)
    (envInstallId : Option String) (randomId : String)
    (envInstallType : Option String) : AppContext :=
  { appNamespace := "lightdash"
    name := "lightdash_server"
    version := version
    mode := cfg.mode
    siteUrl := if cfg.mode == LightdashMode.cloudBeta then some cfg.siteUrl else none
    installId := if truthyStr envInstallId then envInstallId.getD randomId else randomId
    installType := if truthyStr envInstallType then envInstallType.getD "unknown" else "unknown" }

/-- An event record passed to `LightdashAnalytics.track`: the fields of
`BaseTrack` that the wrapper reads or forwards. -/
structure TrackPayload where
  userId : Option String
  anonymousId : Option String
  event : String
  properties : JsObj
  deriving DecidableEq, Repr

/-- A record handed to the delivery SDK's `track` primitive. -/
structure OutgoingTrack where
  userId : Option String
  anonymousId : Option String
  event : String
  properties : JsObj
  context : AppContext
  deriving DecidableEq, Repr

/-- An `Identify` payload: subject id plus trait bag. -/
structure IdentifyPayload where
  userId : String
  traits : JsObj
  deriving DecidableEq, Repr

/-- A record handed to the delivery SDK's `identify` primitive. -/
structure OutgoingIdentify where
  userId : String
  traits : JsObj
  context : AppContext
  deriving DecidableEq, Repr

/-- A `Group` payload: subject, group and trait bag. -/
structure GroupPayload where
  userId : String
  groupId : String
  traits : JsObj
  deriving DecidableEq, Repr

/-- A record handed to the delivery SDK's `group` primitive. -/
structure OutgoingGroup where
  userId : String
  groupId : String
  traits : JsObj
  context : AppContext
  deriving DecidableEq, Repr

/-- `LightdashAnalytics.identify`: no-op when the write key is falsy,
otherwise forwards the payload with the process-wide context attached. -/
def identify (cfg : LightdashConfig) (ctx : AppContext)
    (p : IdentifyPayload) : Option OutgoingIdentify :=
  if !truthyStr cfg.rudder.writeKey then none
  else some { userId := p.userId, traits := p.traits, context := ctx }

/-- The record `LightdashAnalytics.track` hands to `super.track` for a
given payload (the transformation applied after the suppression check).
`isUserUpdatedEvent` / `isUserVerifiedEvent` test the `event` string;
the user-updated branch rebuilds the property bag from scratch
(snake-cased basic fields, personal fields only when not anonymized),
the user-verified branch overrides `email` with `undefined` when
anonymized, and every branch namespaces the event name with
`lightdashContext.app.name` and attaches a copy of the context. -/
def trackRecord (ctx : AppContext) (p : TrackPayload) : OutgoingTrack :=
  if p.event == "user.updated" then
    let props := p.properties
    let basicEventProperties : JsObj :=
      [("is_tracking_anonymized", jsGetD props "isTrackingAnonymized"),
       ("is_marketing_opted_in", jsGetD props "isMarketingOptedIn"),
       ("job_title", jsGetD props "jobTitle"),
       ("is_setup_complete", jsGetD props "isSetupComplete")]
    { userId := p.userId
      anonymousId := p.anonymousId
      event := ctx.name ++ "." ++ p.event
      context := ctx
      properties :=
        if (jsGetD props "isTrackingAnonymized").truthy then
          basicEventProperties
        else
          basicEventProperties ++
            [("email", jsGetD props "email"),
             ("first_name", jsGetD props "firstName"),
             ("last_name", jsGetD props "lastName")] }
  else if p.event == "user.verified" then
    { userId := p.userId
      anonymousId := p.anonymousId
      event := ctx.name ++ "." ++ p.event
      context := ctx
      properties :=
        jsSet p.properties "email"
          (if (jsGetD p.properties "isTrackingAnonymized").truthy then JsVal.undef
           else jsGetD p.properties "email") }
  else
    { userId := p.userId
      anonymousId := p.anonymousId
      event := ctx.name ++ "." ++ p.event
      context := ctx
      properties := p.properties }

/-- `LightdashAnalytics.track`: no-op when the write key is falsy,
otherwise exactly one `super.track` call with the transformed record. -/
def track (cfg : LightdashConfig) (ctx : AppContext)
    (p : TrackPayload) : Option OutgoingTrack :=
  if !truthyStr cfg.rudder.writeKey then none
  else some (trackRecord ctx p)

/-- `LightdashAnalytics.group`: no-op when the write key is falsy,
otherwise forwards the payload with the process-wide context attached. -/
def group (cfg : LightdashConfig) (ctx : AppContext)
    (p : GroupPayload) : Option OutgoingGroup :=
  if !truthyStr cfg.rudder.writeKey then none
  else some { userId := p.userId, groupId := p.groupId, traits := p.traits, context := ctx }

/-- A JavaScript `Error` as thrown by the wrapped operation or by the
delivery SDK: `name` and `message` (so that rethrowing "the same error
unchanged" is observable). -/
structure JsError where
  name : String
  message : String
  deriving DecidableEq, Repr

/-- String conversion of an error as in the template literal
`` `Error in scheduler task: ${e}` `` (`Error.prototype.toString`). -/
def jsErrorString (e : JsError) : String :=
  e.name ++ ": " ++ e.message

/-- Transport behaviour of the delivery SDK: for each record handed to
`super.track`, either success (`none`) or a thrown error. -/
def Transport := OutgoingTrack → Option JsError

/-- Behaviour of the awaited operation `func` passed to `wrapEvent`:
it resolves with a result or rejects with an error. -/
inductive FuncBehavior (T : Type) where
  | ok (t : T)
  | err (e : JsError)

/-- Result of one `wrapEvent` call: the ordered payloads of its own
`this.track` invocations, the SDK-level calls that were made, the log
lines written via `Logger.error`, and the outcome (return value or the
error that propagated to the caller). -/
structure WrapResult (T : Type) where
  emitted : List TrackPayload
  calls : List OutgoingTrack
  logs : List String
  outcome : Except JsError T

/-- One `this.track(p)` invocation inside `wrapEvent`: the SDK call made
(none under suppression) and the transport error, if the SDK threw. -/
def doTrack (cfg : LightdashConfig) (ctx : AppContext) (tr : Transport)
    (p : TrackPayload) : List OutgoingTrack × Option JsError :=
  match track cfg ctx p with
  | none => ([], none)
  | some o => ([o], tr o)

/-- The `catch (e)` block of `wrapEvent`: emits the `.error` event with
`error: e.message` merged over the payload's properties, logs, and
rethrows `e` — unless that `.error` emission itself throws, in which case
the new error propagates and nothing is logged. -/
def handleCatch {T : Type} (cfg : LightdashConfig) (ctx : AppContext)
    (tr : Transport) (p : TrackPayload) (e : JsError)
    (priorEmitted : List TrackPayload) (priorCalls : List OutgoingTrack) :
    WrapResult T :=
  let errP : TrackPayload :=
    { p with event := p.event ++ ".error",
             properties := jsSet p.properties "error" (JsVal.str e.message) }
  let r := doTrack cfg ctx tr errP
  match r.2 with
  | some e2 =>
      { emitted := priorEmitted ++ [errP], calls := priorCalls ++ r.1,
        logs := [], outcome := Except.error e2 }
  | none =>
      { emitted := priorEmitted ++ [errP], calls := priorCalls ++ r.1,
        logs := ["Error in scheduler task: " ++ jsErrorString e],
        outcome := Except.error e }

/-- The `extraProperties ? extraProperties(results) : {}` step. -/
def extraApp {T : Type} (extra : Option (T → JsObj)) (t : T) : JsObj :=
  match extra with
  | some f => f t
  | none => []

/-- `LightdashAnalytics.wrapEvent`: inside one `try` block, emits
`<event>.started`, awaits `func`, emits `<event>.completed` with the
derived extra properties merged in, and returns the result; any error
raised inside the `try` block — by `func` or by either of the two
`this.track` calls — reaches the `catch` block (`handleCatch`). -/
def wrapEvent {T : Type} (cfg : LightdashConfig) (ctx : AppContext)
    (tr : Transport) (p : TrackPayload) (func : FuncBehavior T)
    (extra : Option (T → JsObj)) : WrapResult T :=
  let startedP : TrackPayload := { p with event := p.event ++ ".started" }
  let r1 := doTrack cfg ctx tr startedP
  match r1.2 with
  | some e => handleCatch cfg ctx tr p e [startedP] r1.1
  | none =>
    match func with
    | .err e => handleCatch cfg ctx tr p e [startedP] r1.1
    | .ok results =>
      let completedP : TrackPayload :=
        { p with event := p.event ++ ".completed",
                 properties := jsMerge p.properties (extraApp extra results) }
      let r2 := doTrack cfg ctx tr completedP
      match r2.2 with
      | some e => handleCatch cfg ctx tr p e [startedP, completedP] (r1.1 ++ r2.1)
      | none =>
          { emitted := [startedP, completedP], calls := r1.1 ++ r2.1,
            logs := [], outcome := Except.ok results }

/-- Modelled from the spec: the `QueryExecutionContext` enumeration lives
in the `@lightdash/common` package, which is not part of the excerpt; the
spec names CLI, API, scheduled delivery and alert among its values, the
source additionally dispatches on those four.  Each value is a distinct
non-empty string; the CLI value lower-cases to `"cli"`. -/
inductive QueryExecutionContext where
  | dashboardView
  | exploreView
  | cli
  | api
  | scheduledDelivery
  | alert
  deriving DecidableEq, Repr

/-- The string value of each `QueryExecutionContext` enumeration member
(the `value` side of `Object.entries(QueryExecutionContext)`). -/
def QueryExecutionContext.value : QueryExecutionContext → String
  | .dashboardView => "dashboardView"
  | .exploreView => "exploreView"
  | .cli => "cli"
  | .api => "api"
  | .scheduledDelivery => "scheduledDelivery"
  | .alert => "alert"

/-- Iteration order of `Object.entries(QueryExecutionContext)` (values
only; the loop never reads the keys). -/
def queryExecutionContextEntries : List QueryExecutionContext :=
  [.dashboardView, .exploreView, .cli, .api, .scheduledDelivery, .alert]

/-- Modelled from the spec: the `RequestMethod` enumeration from
`@lightdash/common` (not in the excerpt); the source dispatches on CLI,
CLI_CI and UNKNOWN and lumps the remaining members into a default case. -/
inductive RequestMethod where
  | cli
  | cliCi
  | webApp
  | headlessBrowser
  | unknown
  deriving DecidableEq, Repr

/-- Modelled from the spec: `getRequestMethod` from `@lightdash/common`
(not in the excerpt) maps the declared method header onto the matching
`RequestMethod` member and anything unrecognized or absent onto
`UNKNOWN`. -/
def getRequestMethod : Option String → RequestMethod
  | some "CLI" => .cli
  | some "CLI_CI" => .cliCi
  | some "WEB_APP" => .webApp
  | some "HEADLESS_BROWSER" => .headlessBrowser
  | _ => .unknown

/-- An express query-parameter value: absent, a string, or a repeated
parameter (array) — only the string case passes the `typeof` guard. -/
inductive QueryParamVal where
  | absent
  | str (s : String)
  | many (l : List String)
  deriving DecidableEq, Repr

/-- The slice of the express `Request` the classifiers read: the
`context` query parameter and the Lightdash request-method header. -/
structure Request where
  contextQuery : QueryParamVal
  methodHeader : Option String
  deriving DecidableEq, Repr

/-- `getContextFromHeader`: CLI and CLI_CI headers classify as CLI,
UNKNOWN as API, every other method as `undefined`. -/
def getContextFromHeader (req : Request) : Option QueryExecutionContext :=
  match getRequestMethod req.methodHeader with
  | .cli => some .cli
  | .cliCi => some .cli
  | .unknown => some .api
  | _ => none

/-- JavaScript `String.prototype.toLowerCase` restricted to the ASCII
identifiers used by the execution-context values. -/
def jsToLower (s : String) : String :=
  ⟨s.data.map Char.toLower⟩

/-- The `for (const [key, value] of Object.entries(...))` loop: first
enumeration member whose value matches the query string
case-insensitively. -/
def findMatchingContext (c : String) :
    List QueryExecutionContext → Option QueryExecutionContext
  | [] => none
  | v :: rest =>
      if jsToLower v.value == jsToLower c then some v
      else findMatchingContext c rest

/-- `getContextFromQueryOrHeader`: takes the `context` query parameter
when it is a truthy string, matches it case-insensitively against the
known execution-context values, warns once on a miss, and otherwise (or
on a miss) falls back to the header classification.  Returns the
classification together with the list of warnings written. -/
def getContextFromQueryOrHeader (req : Request) :
    Option QueryExecutionContext × List String :=
  let context : Option String :=
    match req.contextQuery with
    | .str s => some s
    | _ => none
  match context with
  | some c =>
      if c.isEmpty then (getContextFromHeader req, [])
      else
        match findMatchingContext c queryExecutionContextEntries with
        | some v => (some v, [])
        | none =>
            (getContextFromHeader req, ["Invalid query execution context " ++ c])
  | none => (getContextFromHeader req, [])

/-! ## Helper lemmas about the property-bag operations -/

theorem find?_replaceKey (o : JsObj) (k : String) (v : JsVal)
    (h : o.any (fun p => p.1 == k) = true) :
    (o.map (fun p => if p.1 == k then (k, v) else p)).find? (fun p => p.1 == k)
      = some (k, v) := by
  induction o with
  | nil => simp at h
  | cons hd tl ih =>
      rw [List.map_cons]
      by_cases h1 : (hd.1 == k) = true
      · have hhd : (if (hd.1 == k) = true then (k, v) else hd) = (k, v) := if_pos h1
        rw [hhd]
        exact List.find?_cons_of_pos _ (by simp)
      · have h1f : (hd.1 == k) = false := by
          cases h2 : (hd.1 == k)
          · rfl
          · exact absurd h2 h1
        have hhd : (if (hd.1 == k) = true then (k, v) else hd) = hd := if_neg h1
        have step : List.find? (fun p : String × JsVal => p.1 == k)
            (hd :: List.map (fun p => if (p.1 == k) = true then (k, v) else p) tl)
            = List.find? (fun p : String × JsVal => p.1 == k)
                (List.map (fun p => if (p.1 == k) = true then (k, v) else p) tl) :=
          List.find?_cons_of_neg _ h1
        rw [hhd, step]
        rw [List.any_cons, h1f, Bool.false_or] at h
        exact ih h

theorem find?_replaceKey_ne (o : JsObj) (k q : String) (v : JsVal) (hne : q ≠ k) :
    (o.map (fun p => if p.1 == k then (k, v) else p)).find? (fun p => p.1 == q)
      = o.find? (fun p => p.1 == q) := by
  induction o with
  | nil => rfl
  | cons hd tl ih =>
      rw [List.map_cons]
      by_cases h1 : (hd.1 == k) = true
      · have hdk : hd.1 = k := by simpa using h1
        have hkq : ¬ ((k, v).1 == q) = true := by simp [Ne.symm hne]
        have hdq : ¬ (hd.1 == q) = true := by simp [hdk, Ne.symm hne]
        have hhd : (if (hd.1 == k) = true then (k, v) else hd) = (k, v) := if_pos h1
        have step1 : List.find? (fun p : String × JsVal => p.1 == q)
            ((k, v) :: List.map (fun p => if (p.1 == k) = true then (k, v) else p) tl)
            = List.find? (fun p : String × JsVal => p.1 == q)
                (List.map (fun p => if (p.1 == k) = true then (k, v) else p) tl) :=
          List.find?_cons_of_neg _ hkq
        have step2 : List.find? (fun p : String × JsVal => p.1 == q) (hd :: tl)
            = List.find? (fun p : String × JsVal => p.1 == q) tl :=
          List.find?_cons_of_neg _ hdq
        rw [hhd, step1, step2]
        exact ih
      · have hhd : (if (hd.1 == k) = true then (k, v) else hd) = hd := if_neg h1
        rw [hhd]
        by_cases h2 : (hd.1 == q) = true
        · have step1 : List.find? (fun p : String × JsVal => p.1 == q)
              (hd :: List.map (fun p => if (p.1 == k) = true then (k, v) else p) tl)
              = some hd :=
            List.find?_cons_of_pos _ h2
          have step2 : List.find? (fun p : String × JsVal => p.1 == q) (hd :: tl)
              = some hd :=
            List.find?_cons_of_pos _ h2
          rw [step1, step2]
        · have step1 : List.find? (fun p : String × JsVal => p.1 == q)
              (hd :: List.map (fun p => if (p.1 == k) = true then (k, v) else p) tl)
              = List.find? (fun p : String × JsVal => p.1 == q)
                  (List.map (fun p => if (p.1 == k) = true then (k, v) else p) tl) :=
            List.find?_cons_of_neg _ h2
          have step2 : List.find? (fun p : String × JsVal => p.1 == q) (hd :: tl)
              = List.find? (fun p : String × JsVal => p.1 == q) tl :=
            List.find?_cons_of_neg _ h2
          rw [step1, step2]
          exact ih

/-- Reading back the key just written by a spread-override. -/
theorem jsGet_jsSet_self (o : JsObj) (k : String) (v : JsVal) :
    jsGet (jsSet o k v) k = some v := by
  unfold jsSet jsGet
  by_cases h : o.any (fun p => p.1 == k) = true
  · rw [if_pos h, find?_replaceKey o k v h]
    rfl
  · rw [if_neg h, List.find?_append]
    have hnone : o.find? (fun p => p.1 == k) = none := by
      rw [List.find?_eq_none]
      intro p hp hc
      exact h (List.any_eq_true.mpr ⟨p, hp, hc⟩)
    rw [hnone]
    simp

/-- A spread-override leaves every other key unchanged. -/
theorem jsGet_jsSet_ne (o : JsObj) (k q : String) (v : JsVal) (hne : q ≠ k) :
    jsGet (jsSet o k v) q = jsGet o q := by
  unfold jsSet jsGet
  by_cases h : o.any (fun p => p.1 == k) = true
  · rw [if_pos h, find?_replaceKey_ne o k q v hne]
  · rw [if_neg h, List.find?_append]
    have hsing : List.find? (fun p => p.1 == q) [(k, v)] = none := by
      simp [Ne.symm hne]
    rw [hsing]
    cases o.find? (fun p => p.1 == q) <;> rfl

/-- `hasKey` is membership of the key list. -/
theorem hasKey_iff (o : JsObj) (k : String) :
    hasKey o k = true ↔ k ∈ o.map Prod.fst := by
  induction o with
  | nil => simp [hasKey]
  | cons hd tl ih =>
      simp only [hasKey, List.any_cons, Bool.or_eq_true, beq_iff_eq,
        List.map_cons, List.mem_cons]
      rw [show (tl.any fun p => p.1 == k) = hasKey tl k from rfl, ih]
      exact or_congr eq_comm Iff.rfl

/-- The entries loop misses exactly when every value mismatches
case-insensitively. -/
theorem findMatchingContext_eq_none (c : String)
    (l : List QueryExecutionContext)
    (h : ∀ v ∈ l, jsToLower v.value ≠ jsToLower c) :
    findMatchingContext c l = none := by
  induction l with
  | nil => rfl
  | cons hd tl ih =>
      have h1 : (jsToLower hd.value == jsToLower c) = false := by
        simp [h hd (List.mem_cons_self hd tl)]
      simp [findMatchingContext, h1]
      exact ih (fun v hv => h v (List.mem_cons_of_mem hd hv))

/-- With an infallible transport, no internal `this.track` call throws. -/
theorem doTrack_snd_none (cfg : LightdashConfig) (ctx : AppContext)
    (tr : Transport) (p : TrackPayload) (htr : ∀ o, tr o = none) :
    (doTrack cfg ctx tr p).2 = none := by
  unfold doTrack
  cases track cfg ctx p <;> simp [htr]

/-! ## Concrete fixtures used by witnesses and counterexamples -/

/-- A configuration with a truthy write key (tracking enabled). -/
def cfgOn : LightdashConfig :=
  { rudder := { writeKey := some "wk-1", dataPlaneUrl := some "https://dp.example" },
    mode := LightdashMode.defaultMode,
    siteUrl := "https://ld.example" }

/-- A configuration with the write key unset (tracking disabled). -/
def cfgOff : LightdashConfig :=
  { rudder := { writeKey := none, dataPlaneUrl := none },
    mode := LightdashMode.defaultMode,
    siteUrl := "https://ld.example" }

/-- A concrete process-wide context built by the constructor. -/
def ctx0 : AppContext :=
  mkLightdashContext cfgOn "0.1102.0" none "install-0000" none

/-- The always-succeeding transport. -/
def trOk : Transport := fun _ => none

/-- A `user.updated` payload with the anonymization flag set. -/
def pUpdAnon : TrackPayload :=
  { userId := some "u-1", anonymousId := none, event := "user.updated",
    properties :=
      [("isTrackingAnonymized", JsVal.bool true),
       ("isMarketingOptedIn", JsVal.bool false),
       ("jobTitle", JsVal.str "engineer"),
       ("isSetupComplete", JsVal.bool true),
       ("email", JsVal.str "ada@example.com"),
       ("firstName", JsVal.str "Ada"),
       ("lastName", JsVal.str "Lovelace"),
       ("updatedUserId", JsVal.str "u-1"),
       ("organizationId", JsVal.str "org-1"),
       ("context", JsVal.str "api update")] }

/-- The same `user.updated` payload with the anonymization flag cleared. -/
def pUpdFull : TrackPayload :=
  { pUpdAnon with properties :=
      (jsSet pUpdAnon.properties "isTrackingAnonymized" (JsVal.bool false)) }

/-- A `user.verified` payload with the anonymization flag set. -/
def pVerAnon : TrackPayload :=
  { userId := some "u-2", anonymousId := none, event := "user.verified",
    properties :=
      [("isTrackingAnonymized", JsVal.bool true),
       ("email", JsVal.str "eva@example.com"),
       ("location", JsVal.str "onboarding")] }

/-- The same `user.verified` payload with the anonymization flag cleared. -/
def pVerPlain : TrackPayload :=
  { pVerAnon with properties :=
      (jsSet pVerAnon.properties "isTrackingAnonymized" (JsVal.bool false)) }

/-- An event payload that is neither `user.updated` nor `user.verified`. -/
def pOther : TrackPayload :=
  { userId := none, anonymousId := some "anon-1", event := "query.executed",
    properties := [("metricsCount", JsVal.num 2), ("chartId", JsVal.str "c-9")] }

/-- A concrete `identify` payload. -/
def idP0 : IdentifyPayload :=
  { userId := "u-1",
    traits := [("email", JsVal.str "ada@example.com"),
               ("is_tracking_anonymized", JsVal.bool false)] }

/-- A concrete `group` payload. -/
def gP0 : GroupPayload :=
  { userId := "u-1", groupId := "org-1", traits := [("name", JsVal.str "Org One")] }

/-! ## The claims -/

/-- Claim C1: for every `user.updated` event record passed to `track` with
the anonymization flag (`isTrackingAnonymized`) true, the property bag
forwarded to the delivery SDK contains none of the keys `email`,
`first_name`, `last_name`. -/
theorem C1_user_updated_anonymized_no_pii
    (cfg : LightdashConfig) (ctx : AppContext) (p : TrackPayload)
    (o : OutgoingTrack)
    (hev : p.event = "user.updated")
    (hanon : jsGetD p.properties "isTrackingAnonymized" = JsVal.bool true)
    (hout : track cfg ctx p = some o) :
    hasKey o.properties "email" = false ∧
    hasKey o.properties "first_name" = false ∧
    hasKey o.properties "last_name" = false := by
  have ho : o = trackRecord ctx p := by
    unfold track at hout
    split at hout
    · exact absurd hout (by simp)
    · exact (Option.some.inj hout).symm
  subst ho
  unfold trackRecord
  simp only [hev, hanon]
  simp [hasKey, JsVal.truthy]

/-- Witness for C1 at a concrete anonymized `user.updated` payload. -/
theorem C1_user_updated_anonymized_no_pii_witness :
    hasKey (trackRecord ctx0 pUpdAnon).properties "email" = false ∧
    hasKey (trackRecord ctx0 pUpdAnon).properties "first_name" = false ∧
    hasKey (trackRecord ctx0 pUpdAnon).properties "last_name" = false :=
  C1_user_updated_anonymized_no_pii cfgOn ctx0 pUpdAnon
    (trackRecord ctx0 pUpdAnon) rfl rfl rfl

/-- Claim C5: when the configured delivery write key is absent/falsy,
`identify`, `track` and `group` each return without making any call to
the delivery SDK. -/
theorem C5_suppression_no_calls
    (cfg : LightdashConfig) (ctx : AppContext)
    (hw : truthyStr cfg.rudder.writeKey = false) :
    (∀ p : IdentifyPayload, identify cfg ctx p = none) ∧
    (∀ p : TrackPayload, track cfg ctx p = none) ∧
    (∀ p : GroupPayload, group cfg ctx p = none) := by
  refine ⟨fun p => ?_, fun p => ?_, fun p => ?_⟩ <;>
    simp [identify, track, group, hw]

/-- Witness for C5 with an unset write key and one payload of each kind. -/
theorem C5_suppression_no_calls_witness :
    identify cfgOff ctx0 idP0 = none ∧
    track cfgOff ctx0 pOther = none ∧
    group cfgOff ctx0 gP0 = none :=
  ⟨(C5_suppression_no_calls cfgOff ctx0 rfl).1 idP0,
   (C5_suppression_no_calls cfgOff ctx0 rfl).2.1 pOther,
   (C5_suppression_no_calls cfgOff ctx0 rfl).2.2 gP0⟩

/-- Claim C6: for every `user.verified` event record passed to `track`,
when the anonymization flag is true the emitted property bag carries no
email value (the source overwrites the `email` key with `undefined`,
which is how an optional field is omitted from the payload), and when
the flag is false the bag includes the input's email value whenever it
is present on the input. -/
theorem C6_user_verified_email_rule
    (cfg : LightdashConfig) (ctx : AppContext) (p : TrackPayload)
    (o : OutgoingTrack)
    (hev : p.event = "user.verified")
    (hout : track cfg ctx p = some o) :
    (jsGetD p.properties "isTrackingAnonymized" = JsVal.bool true →
       jsGetD o.properties "email" = JsVal.undef) ∧
    (jsGetD p.properties "isTrackingAnonymized" = JsVal.bool false →
       ∀ v, jsGet p.properties "email" = some v →
         jsGet o.properties "email" = some v) := by
  have ho : o = trackRecord ctx p := by
    unfold track at hout
    split at hout
    · exact absurd hout (by simp)
    · exact (Option.some.inj hout).symm
  subst ho
  unfold trackRecord
  simp only [hev]
  constructor
  · intro hanon
    simp only [hanon, JsVal.truthy]
    simp [jsGetD, jsGet_jsSet_self]
  · intro hanon v hv
    have hvD : jsGetD p.properties "email" = v := by
      simp [jsGetD, hv]
    simp only [hanon, JsVal.truthy]
    simp [hvD, jsGet_jsSet_self]

/-- Witness for C6 at two concrete `user.verified` payloads, one
anonymized and one not. -/
theorem C6_user_verified_email_rule_witness :
    jsGetD (trackRecord ctx0 pVerAnon).properties "email" = JsVal.undef ∧
    jsGet (trackRecord ctx0 pVerPlain).properties "email"
      = some (JsVal.str "eva@example.com") :=
  ⟨(C6_user_verified_email_rule cfgOn ctx0 pVerAnon
      (trackRecord ctx0 pVerAnon) rfl rfl).1 rfl,
   (C6_user_verified_email_rule cfgOn ctx0 pVerPlain
      (trackRecord ctx0 pVerPlain) rfl rfl).2 rfl
      (JsVal.str "eva@example.com") rfl⟩

/-- Claim C7: for every `user.updated` event record passed to `track`
with the anonymization flag false, the forwarded property bag contains
the keys `email`, `first_name` and `last_name`, carrying the input's
`email`, `firstName` and `lastName` values whenever the input provided
them. -/
theorem C7_user_updated_not_anonymized_pii
    (cfg : LightdashConfig) (ctx : AppContext) (p : TrackPayload)
    (o : OutgoingTrack)
    (hev : p.event = "user.updated")
    (hanon : jsGetD p.properties "isTrackingAnonymized" = JsVal.bool false)
    (hout : track cfg ctx p = some o) :
    hasKey o.properties "email" = true ∧
    hasKey o.properties "first_name" = true ∧
    hasKey o.properties "last_name" = true ∧
    (∀ v, jsGet p.properties "email" = some v →
       jsGet o.properties "email" = some v) ∧
    (∀ v, jsGet p.properties "firstName" = some v →
       jsGet o.properties "first_name" = some v) ∧
    (∀ v, jsGet p.properties "lastName" = some v →
       jsGet o.properties "last_name" = some v) := by
  have ho : o = trackRecord ctx p := by
    unfold track at hout
    split at hout
    · exact absurd hout (by simp)
    · exact (Option.some.inj hout).symm
  subst ho
  unfold trackRecord
  simp only [hev, hanon, JsVal.truthy]
  refine ⟨by simp [hasKey], by simp [hasKey], by simp [hasKey],
    fun v hv => ?_, fun v hv => ?_, fun v hv => ?_⟩
  · have hvD : jsGetD p.properties "email" = v := by
      unfold jsGetD
      rw [hv]
      rfl
    rw [← hvD]
    rfl
  · have hvD : jsGetD p.properties "firstName" = v := by
      unfold jsGetD
      rw [hv]
      rfl
    rw [← hvD]
    rfl
  · have hvD : jsGetD p.properties "lastName" = v := by
      unfold jsGetD
      rw [hv]
      rfl
    rw [← hvD]
    rfl

/-- Witness for C7 at a concrete non-anonymized `user.updated` payload. -/
theorem C7_user_updated_not_anonymized_pii_witness :
    hasKey (trackRecord ctx0 pUpdFull).properties "email" = true ∧
    jsGet (trackRecord ctx0 pUpdFull).properties "email"
      = some (JsVal.str "ada@example.com") ∧
    jsGet (trackRecord ctx0 pUpdFull).properties "first_name"
      = some (JsVal.str "Ada") ∧
    jsGet (trackRecord ctx0 pUpdFull).properties "last_name"
      = some (JsVal.str "Lovelace") :=
  ⟨(C7_user_updated_not_anonymized_pii cfgOn ctx0 pUpdFull
      (trackRecord ctx0 pUpdFull) rfl rfl rfl).1,
   (C7_user_updated_not_anonymized_pii cfgOn ctx0 pUpdFull
      (trackRecord ctx0 pUpdFull) rfl rfl rfl).2.2.2.1
      (JsVal.str "ada@example.com") rfl,
   (C7_user_updated_not_anonymized_pii cfgOn ctx0 pUpdFull
      (trackRecord ctx0 pUpdFull) rfl rfl rfl).2.2.2.2.1
      (JsVal.str "Ada") rfl,
   (C7_user_updated_not_anonymized_pii cfgOn ctx0 pUpdFull
      (trackRecord ctx0 pUpdFull) rfl rfl rfl).2.2.2.2.2
      (JsVal.str "Lovelace") rfl⟩

/-- Claim C9: for every `user.updated` event record passed to `track`,
whatever the anonymization flag, the forwarded property bag draws its
keys from the four snake-cased basic keys plus — only when not
anonymized — the three personal keys; in particular the input's
`updatedUserId`, `organizationId` and `context` properties never appear
in the outgoing bag. -/
theorem C9_user_updated_key_frame
    (cfg : LightdashConfig) (ctx : AppContext) (p : TrackPayload)
    (o : OutgoingTrack)
    (hev : p.event = "user.updated")
    (hout : track cfg ctx p = some o) :
    (∀ k, hasKey o.properties k = true →
        k ∈ (["is_tracking_anonymized", "is_marketing_opted_in",
              "job_title", "is_setup_complete"] ++
          (if (jsGetD p.properties "isTrackingAnonymized").truthy then []
           else ["email", "first_name", "last_name"]))) ∧
    hasKey o.properties "updatedUserId" = false ∧
    hasKey o.properties "organizationId" = false ∧
    hasKey o.properties "context" = false := by
  have ho : o = trackRecord ctx p := by
    unfold track at hout
    split at hout
    · exact absurd hout (by simp)
    · exact (Option.some.inj hout).symm
  subst ho
  unfold trackRecord
  simp only [hev]
  by_cases hfl : (jsGetD p.properties "isTrackingAnonymized").truthy = true
  · simp only [hfl, if_true]
    refine ⟨fun k hk => ?_, by simp [hasKey], by simp [hasKey], by simp [hasKey]⟩
    have := (hasKey_iff _ k).mp (by simpa using hk)
    simpa using this
  · simp only [Bool.not_eq_true] at hfl
    simp only [hfl]
    refine ⟨fun k hk => ?_, by simp [hasKey], by simp [hasKey], by simp [hasKey]⟩
    have := (hasKey_iff _ k).mp (by simpa using hk)
    simpa using this

/-- Witness for C9 at a concrete anonymized `user.updated` payload. -/
theorem C9_user_updated_key_frame_witness :
    ("email" ∈ (["is_tracking_anonymized", "is_marketing_opted_in",
        "job_title", "is_setup_complete"] ++
      (if (jsGetD pUpdAnon.properties "isTrackingAnonymized").truthy then
        ([] : List String)
       else ["email", "first_name", "last_name"])) → False) ∧
    hasKey (trackRecord ctx0 pUpdAnon).properties "updatedUserId" = false ∧
    hasKey (trackRecord ctx0 pUpdAnon).properties "organizationId" = false ∧
    hasKey (trackRecord ctx0 pUpdAnon).properties "context" = false :=
  ⟨by decide,
   (C9_user_updated_key_frame cfgOn ctx0 pUpdAnon
      (trackRecord ctx0 pUpdAnon) rfl rfl).2.1,
   (C9_user_updated_key_frame cfgOn ctx0 pUpdAnon
      (trackRecord ctx0 pUpdAnon) rfl rfl).2.2.1,
   (C9_user_updated_key_frame cfgOn ctx0 pUpdAnon
      (trackRecord ctx0 pUpdAnon) rfl rfl).2.2.2⟩

/-- Claim C10: every event record that is neither `user.updated` nor
`user.verified` (with suppression off) is forwarded unchanged except
that the event name is namespaced with the application name and the
process-wide context is attached; in particular the property bag is
forwarded unmodified. -/
theorem C10_other_events_pass_through
    (cfg : LightdashConfig) (ctx : AppContext) (p : TrackPayload)
    (hw : truthyStr cfg.rudder.writeKey = true)
    (h1 : p.event ≠ "user.updated")
    (h2 : p.event ≠ "user.verified") :
    track cfg ctx p = some
      { userId := p.userId, anonymousId := p.anonymousId,
        event := ctx.name ++ "." ++ p.event,
        properties := p.properties, context := ctx } := by
  unfold track trackRecord
  simp [hw, h1, h2]

/-- Witness for C10 at a concrete `query.executed` payload. -/
theorem C10_other_events_pass_through_witness :
    track cfgOn ctx0 pOther = some
      { userId := pOther.userId, anonymousId := pOther.anonymousId,
        event := ctx0.name ++ "." ++ pOther.event,
        properties := pOther.properties, context := ctx0 } :=
  C10_other_events_pass_through cfgOn ctx0 pOther rfl
    (by decide) (by decide)

/-- A payload used with `wrapEvent`. -/
def pJob : TrackPayload :=
  { userId := some "u-3", anonymousId := none, event := "job.run",
    properties := [("jobId", JsVal.str "j-1")] }

/-- A concrete error value thrown in counterexamples and witnesses. -/
def eBoom : JsError := { name := "Error", message := "boom" }

/-- A transport that throws exactly on the namespaced `.started` call of
`pJob` and succeeds on everything else. -/
def crashOnStartedTr : Transport := fun o =>
  if o.event == "lightdash_server.job.run.started" then some eBoom else none

/-- A transport that throws exactly on the namespaced `.completed` call
of `pJob` and succeeds on everything else. -/
def crashOnCompletedTr : Transport := fun o =>
  if o.event == "lightdash_server.job.run.completed" then some eBoom else none

/-- Claim C2: with the delivery transport not failing, every `wrapEvent`
call emits exactly one `<event>.started` event, first, before the
operation runs, and exactly one terminal event after the operation
resolves or rejects — `<event>.completed` on resolution,
`<event>.error` on rejection — never zero terminal events and never
both. -/
theorem C2_wrapEvent_lifecycle {T : Type} (cfg : LightdashConfig)
    (ctx : AppContext) (tr : Transport) (p : TrackPayload)
    (func : FuncBehavior T) (extra : Option (T → JsObj))
    (htr : ∀ o, tr o = none) :
    (wrapEvent cfg ctx tr p func extra).emitted.map TrackPayload.event =
      [p.event ++ ".started",
       p.event ++ (match func with
                   | FuncBehavior.ok _ => ".completed"
                   | FuncBehavior.err _ => ".error")] := by
  have h1 := doTrack_snd_none cfg ctx tr { p with event := p.event ++ ".started" } htr
  cases func with
  | ok t =>
      have h2 := doTrack_snd_none cfg ctx tr
        { p with event := p.event ++ ".completed",
                 properties := jsMerge p.properties (extraApp extra t) } htr
      simp [wrapEvent, h1, h2]
  | err e =>
      have h3 := doTrack_snd_none cfg ctx tr
        { p with event := p.event ++ ".error",
                 properties := jsSet p.properties "error" (JsVal.str e.message) } htr
      simp [wrapEvent, handleCatch, h1, h3]

/-- Witness for C2 on one resolving and one rejecting operation. -/
theorem C2_wrapEvent_lifecycle_witness :
    (wrapEvent cfgOn ctx0 trOk pJob (FuncBehavior.ok (42 : Nat))
        none).emitted.map TrackPayload.event
      = ["job.run.started", "job.run.completed"] ∧
    (wrapEvent cfgOn ctx0 trOk pJob
        (FuncBehavior.err eBoom : FuncBehavior Nat)
        none).emitted.map TrackPayload.event
      = ["job.run.started", "job.run.error"] :=
  ⟨C2_wrapEvent_lifecycle cfgOn ctx0 trOk pJob (FuncBehavior.ok 42) none
      (fun _ => rfl),
   C2_wrapEvent_lifecycle cfgOn ctx0 trOk pJob (FuncBehavior.err eBoom) none
      (fun _ => rfl)⟩

/-- Claim C3: with the delivery transport not failing, when the wrapped
operation rejects with `e`, `wrapEvent` emits a `<event>.error` event
whose properties carry `e`'s message under the `error` key, logs the
failure, and then rethrows the same failure `e` unchanged. -/
theorem C3_wrapEvent_error_path {T : Type} (cfg : LightdashConfig)
    (ctx : AppContext) (tr : Transport) (p : TrackPayload) (e : JsError)
    (extra : Option (T → JsObj)) (htr : ∀ o, tr o = none) :
    (wrapEvent cfg ctx tr p (FuncBehavior.err e) extra).emitted =
      [{ p with event := p.event ++ ".started" },
       { p with event := p.event ++ ".error",
                properties := jsSet p.properties "error" (JsVal.str e.message) }] ∧
    jsGet (jsSet p.properties "error" (JsVal.str e.message)) "error"
      = some (JsVal.str e.message) ∧
    (wrapEvent cfg ctx tr p (FuncBehavior.err e) extra).logs =
      ["Error in scheduler task: " ++ jsErrorString e] ∧
    (wrapEvent cfg ctx tr p (FuncBehavior.err e) extra).outcome
      = Except.error e := by
  have h1 := doTrack_snd_none cfg ctx tr { p with event := p.event ++ ".started" } htr
  have h3 := doTrack_snd_none cfg ctx tr
    { p with event := p.event ++ ".error",
             properties := jsSet p.properties "error" (JsVal.str e.message) } htr
  refine ⟨?_, jsGet_jsSet_self _ _ _, ?_, ?_⟩ <;>
    simp [wrapEvent, handleCatch, h1, h3]

/-- Witness for C3 on a concrete rejecting operation. -/
theorem C3_wrapEvent_error_path_witness :
    (wrapEvent cfgOn ctx0 trOk pJob (FuncBehavior.err eBoom : FuncBehavior Nat)
        none).logs = ["Error in scheduler task: Error: boom"] ∧
    (wrapEvent cfgOn ctx0 trOk pJob (FuncBehavior.err eBoom : FuncBehavior Nat)
        none).outcome = Except.error eBoom ∧
    jsGet (jsSet pJob.properties "error" (JsVal.str eBoom.message)) "error"
      = some (JsVal.str eBoom.message) :=
  ⟨(C3_wrapEvent_error_path cfgOn ctx0 trOk pJob eBoom none
      (fun _ => rfl)).2.2.1,
   (C3_wrapEvent_error_path cfgOn ctx0 trOk pJob eBoom none
      (fun _ => rfl)).2.2.2,
   (C3_wrapEvent_error_path cfgOn ctx0 trOk pJob eBoom
      (none : Option (Nat → JsObj)) (fun _ => rfl)).2.1⟩

/-- Counterexample to claim C4: with tracking enabled and a transport
that throws exactly on the `.started` SDK call, the wrapped operation
resolves, yet `wrapEvent` catches its own emission failure, runs the
`.error`-event branch (the `.error` event is emitted), and rethrows the
emission failure — so failures raised by `wrapEvent`'s internal `track`
calls are caught and do trigger the `.error`-event branch. -/
theorem C4_counterexample :
    (wrapEvent cfgOn ctx0 crashOnStartedTr pJob (FuncBehavior.ok (0 : Nat))
        none).emitted.map TrackPayload.event
      = ["job.run.started", "job.run.error"] ∧
    (wrapEvent cfgOn ctx0 crashOnStartedTr pJob (FuncBehavior.ok (0 : Nat))
        none).outcome = Except.error eBoom := by
  constructor
  · rfl
  · rfl

/-- Claim C4 (amended): `wrapEvent`'s `try` block also covers its own
event emission, so a failure raised by either internal `track` call —
the `.started` one (whatever the operation would do) or the
`.completed` one (after the operation resolved) — is caught by the same
`catch`, triggers the `.error`-event branch, is logged and is rethrown
to the caller; only a failure of the `.error` emission itself propagates
uncaught (replacing the original failure and skipping the log). -/
theorem C4_emission_failures_caught {T : Type} (cfg : LightdashConfig)
    (ctx : AppContext) (tr : Transport) (p : TrackPayload) (e : JsError)
    (extra : Option (T → JsObj))
    (hw : truthyStr cfg.rudder.writeKey = true) :
    (∀ func : FuncBehavior T,
       tr (trackRecord ctx { p with event := p.event ++ ".started" }) = some e →
       ((tr (trackRecord ctx { p with
               event := p.event ++ ".error",
               properties := jsSet p.properties "error" (JsVal.str e.message) }) = none →
           (wrapEvent cfg ctx tr p func extra).emitted.map TrackPayload.event
             = [p.event ++ ".started", p.event ++ ".error"] ∧
           (wrapEvent cfg ctx tr p func extra).outcome = Except.error e ∧
           (wrapEvent cfg ctx tr p func extra).logs
             = ["Error in scheduler task: " ++ jsErrorString e]) ∧
        (∀ e2, tr (trackRecord ctx { p with
               event := p.event ++ ".error",
               properties := jsSet p.properties "error" (JsVal.str e.message) }) = some e2 →
           (wrapEvent cfg ctx tr p func extra).outcome = Except.error e2 ∧
           (wrapEvent cfg ctx tr p func extra).logs = []))) ∧
    (∀ t : T,
       tr (trackRecord ctx { p with event := p.event ++ ".started" }) = none →
       tr (trackRecord ctx { p with
             event := p.event ++ ".completed",
             properties := jsMerge p.properties (extraApp extra t) }) = some e →
       ((tr (trackRecord ctx { p with
               event := p.event ++ ".error",
               properties := jsSet p.properties "error" (JsVal.str e.message) }) = none →
           (wrapEvent cfg ctx tr p (FuncBehavior.ok t) extra).emitted.map
               TrackPayload.event
             = [p.event ++ ".started", p.event ++ ".completed",
                p.event ++ ".error"] ∧
           (wrapEvent cfg ctx tr p (FuncBehavior.ok t) extra).outcome
             = Except.error e ∧
           (wrapEvent cfg ctx tr p (FuncBehavior.ok t) extra).logs
             = ["Error in scheduler task: " ++ jsErrorString e]) ∧
        (∀ e2, tr (trackRecord ctx { p with
               event := p.event ++ ".error",
               properties := jsSet p.properties "error" (JsVal.str e.message) }) = some e2 →
           (wrapEvent cfg ctx tr p (FuncBehavior.ok t) extra).outcome
             = Except.error e2 ∧
           (wrapEvent cfg ctx tr p (FuncBehavior.ok t) extra).logs = []))) := by
  have htk : ∀ q : TrackPayload, track cfg ctx q = some (trackRecord ctx q) := by
    intro q
    simp [track, hw]
  constructor
  · intro func hstart
    constructor
    · intro herr
      refine ⟨?_, ?_, ?_⟩ <;>
        simp [wrapEvent, handleCatch, doTrack, htk, hstart, herr]
    · intro e2 herr
      refine ⟨?_, ?_⟩ <;>
        simp [wrapEvent, handleCatch, doTrack, htk, hstart, herr]
  · intro t hstart hcomp
    constructor
    · intro herr
      refine ⟨?_, ?_, ?_⟩ <;>
        simp [wrapEvent, handleCatch, doTrack, htk, hstart, hcomp, herr]
    · intro e2 herr
      refine ⟨?_, ?_⟩ <;>
        simp [wrapEvent, handleCatch, doTrack, htk, hstart, hcomp, herr]

/-- Witness for the amended C4 at two concrete crashing transports: one
failing on the `.started` SDK call, one failing on the `.completed` SDK
call after the operation resolved. -/
theorem C4_emission_failures_caught_witness :
    (wrapEvent cfgOn ctx0 crashOnStartedTr pJob (FuncBehavior.ok (7 : Nat))
        none).outcome = Except.error eBoom ∧
    (wrapEvent cfgOn ctx0 crashOnStartedTr pJob (FuncBehavior.ok (7 : Nat))
        none).logs = ["Error in scheduler task: Error: boom"] ∧
    (wrapEvent cfgOn ctx0 crashOnCompletedTr pJob (FuncBehavior.ok (7 : Nat))
        none).emitted.map TrackPayload.event
      = ["job.run.started", "job.run.completed", "job.run.error"] ∧
    (wrapEvent cfgOn ctx0 crashOnCompletedTr pJob (FuncBehavior.ok (7 : Nat))
        none).outcome = Except.error eBoom :=
  ⟨(((C4_emission_failures_caught cfgOn ctx0 crashOnStartedTr pJob eBoom
      none rfl).1 (FuncBehavior.ok 7) (by decide)).1 (by decide)).2.1,
   (((C4_emission_failures_caught cfgOn ctx0 crashOnStartedTr pJob eBoom
      none rfl).1 (FuncBehavior.ok 7) (by decide)).1 (by decide)).2.2,
   (((C4_emission_failures_caught cfgOn ctx0 crashOnCompletedTr pJob eBoom
      none rfl).2 7 (by decide) (by decide)).1 (by decide)).1,
   (((C4_emission_failures_caught cfgOn ctx0 crashOnCompletedTr pJob eBoom
      none rfl).2 7 (by decide) (by decide)).1 (by decide)).2.1⟩

/-- The entries loop only depends on the lower-cased query string. -/
theorem findMatchingContext_congr (c d : String)
    (h : jsToLower c = jsToLower d) (l : List QueryExecutionContext) :
    findMatchingContext c l = findMatchingContext d l := by
  induction l with
  | nil => rfl
  | cons hd tl ih => simp [findMatchingContext, h, ih]

/-- A request whose `context` query parameter is the empty string. -/
def reqEmptyQuery : Request :=
  { contextQuery := QueryParamVal.str "", methodHeader := some "CLI" }

/-- A request with query value `CLI` and a non-CLI method header. -/
def reqCliQuery : Request :=
  { contextQuery := QueryParamVal.str "CLI", methodHeader := some "WEB_APP" }

/-- A request with an unrecognized non-empty query value. -/
def reqBadQuery : Request :=
  { contextQuery := QueryParamVal.str "nonsense", methodHeader := some "CLI" }

/-- Counterexample to claim C8: the empty string is a string query
parameter matching no known execution-context value (case-insensitively),
yet `getContextFromQueryOrHeader` logs no warning at all — the string
truthiness guard skips the explicit-context path — while still returning
the header-based classification. -/
theorem C8_counterexample :
    (getContextFromQueryOrHeader reqEmptyQuery).2 = [] ∧
    (∀ v ∈ queryExecutionContextEntries, jsToLower v.value ≠ jsToLower "") ∧
    (getContextFromQueryOrHeader reqEmptyQuery).1
      = getContextFromHeader reqEmptyQuery := by
  refine ⟨rfl, by decide, rfl⟩

/-- Claim C8 (amended): with a string query parameter equal to `cli` up
to letter case, `getContextFromQueryOrHeader` returns the CLI
execution-context value regardless of the method header; with a
non-empty string matching no known execution-context value it logs
exactly one warning and returns the header-based classification; an
empty-string query parameter is falsy and is skipped entirely — header
classification, no warning. -/
theorem C8_query_or_header (req : Request) (c : String)
    (h : req.contextQuery = QueryParamVal.str c) :
    (jsToLower c = "cli" →
       getContextFromQueryOrHeader req = (some QueryExecutionContext.cli, [])) ∧
    (c.isEmpty = false →
       (∀ v ∈ queryExecutionContextEntries, jsToLower v.value ≠ jsToLower c) →
       getContextFromQueryOrHeader req
         = (getContextFromHeader req, ["Invalid query execution context " ++ c])) ∧
    (c.isEmpty = true →
       getContextFromQueryOrHeader req = (getContextFromHeader req, [])) := by
  refine ⟨?_, ?_, ?_⟩
  · intro hc
    have hne : ¬ c.isEmpty = true := by
      intro hE
      rw [(String.isEmpty_iff c).mp hE] at hc
      exact absurd hc (by decide)
    have hcongr : findMatchingContext c queryExecutionContextEntries
        = findMatchingContext "cli" queryExecutionContextEntries :=
      findMatchingContext_congr c "cli" (by rw [hc]; decide) _
    have hfind : findMatchingContext c queryExecutionContextEntries
        = some QueryExecutionContext.cli := by
      rw [hcongr]
      decide
    simp [getContextFromQueryOrHeader, h, hne, hfind]
  · intro hE hmiss
    have hfind := findMatchingContext_eq_none c queryExecutionContextEntries hmiss
    simp [getContextFromQueryOrHeader, h, hE, hfind]
  · intro hE
    simp [getContextFromQueryOrHeader, h, hE]

/-- Witness for the amended C8: a cased `CLI` query wins over a WEB_APP
header, and an unrecognized non-empty query warns once and falls back to
the CLI header classification. -/
theorem C8_query_or_header_witness :
    getContextFromQueryOrHeader reqCliQuery
      = (some QueryExecutionContext.cli, []) ∧
    getContextFromQueryOrHeader reqBadQuery
      = (some QueryExecutionContext.cli,
         ["Invalid query execution context nonsense"]) :=
  ⟨(C8_query_or_header reqCliQuery "CLI" rfl).1 (by decide),
   (C8_query_or_header reqBadQuery "nonsense" rfl).2.1 (by decide) (by decide)⟩
